import Mathlib

/-!
Verification of the jokebot dedup-and-selection engine.

Shallow embedding of `src/jokebot.py` (a scheduled content-relay bot):
persistence (`load_json`, `load_subscribers`, `save_subscribers`,
`load_seen`, `save_seen`, `load_news_seen`, `save_news_seen`), the hourly
scheduler (`seconds_until_next_top_of_hour`), the feed aggregator
(`fetch_feed` and the gather/concatenate step of `get_fresh_joke`), the
fresh-item selector (`get_fresh_joke` / `get_fresh_news`), and the
broadcast dispatcher (`send_news_to_chat`, `send_joke_to_chat`,
`hourly_broadcast_loop`).

Modelling conventions:
* Python exceptions are an explicit `Except PyError` result.
* JSON documents are the inductive `Json` (numbers restricted to the
  integers, the only numerals these files ever hold).
* The state file on disk is a `FileContent`: missing, present but not
  parseable by `json.load`, or parsed to a `Json` value.
* `random.shuffle` is modelled by quantifying over the (already
  shuffled) item list: every shuffle outcome is some list value, so a
  property proved for all lists holds for all shuffles.  `random.choice`
  is modelled by an arbitrary index `k`, read modulo the list length.
* `datetime.now(timezone.utc)` is modelled as microseconds since the Unix
  epoch (itself a top-of-hour instant); `timedelta.total_seconds()`
  becomes an exact rational number of seconds.
-/

namespace JokeBot

/-- One normalized feed entry as built by `fetch_feed`:
`{"id": uid, "text": text.strip(), "link": link}`. -/
structure FeedItem where
  id : String
  text : String
  link : String
deriving DecidableEq, Repr

instance : Inhabited FeedItem := ⟨⟨"", "", ""⟩⟩

/-- JSON values, as produced by `json.load`.  Numerals are restricted to
integers (the persisted files of this program only ever hold integers). -/
inductive Json where
  | null : Json
  | bool : Bool → Json
  | num : Int → Json
  | str : String → Json
  | arr : List Json → Json
  | obj : List (String × Json) → Json
deriving Repr

/-- The Python exceptions the modelled code can raise. -/
inductive PyError where
  | attributeError
  | valueError
  | typeError
  | transportError
deriving DecidableEq, Repr

/-- The state of one on-disk file: absent, present but rejected by
`json.load`, or parsed to a JSON value. -/
inductive FileContent where
  | missing : FileContent
  | malformed : FileContent
  | parsed : Json → FileContent

/-- `load_json(path, default)`: returns `default` when the file is missing
(`os.path.exists` is false) or when `json.load` raises; otherwise the
parsed document.  This function itself never raises. -/
def load_json (file : FileContent) (default : Json) : Json :=
  match file with
  | .missing => default
  | .malformed => default
  | .parsed j => j

/-- Python `data.get(key, default)`: defined on dicts, raises
`AttributeError` on every other JSON value.  `json.load` keeps the last
of duplicate keys, hence the reversed lookup. -/
def jsonGet (data : Json) (key : String) (default : Json) : Except PyError Json :=
  match data with
  | .obj fields => .ok (((fields.reverse).lookup key).getD default)
  | _ => .error .attributeError

/-- Python `int(x)` on a JSON value: integers pass through, booleans
coerce (`int(True) == 1`), numeric strings parse (`ValueError` otherwise),
everything else is a `TypeError`. -/
def pyInt (v : Json) : Except PyError Int :=
  match v with
  | .num n => .ok n
  | .bool b => .ok (if b then 1 else 0)
  | .str s =>
    match s.toInt? with
    | some n => .ok n
    | none => .error .valueError
  | _ => .error .typeError

/-- Python iteration over a JSON value: lists yield their elements,
strings their characters, dicts their keys; `None`, booleans and numbers
raise `TypeError`. -/
def pyIterate (v : Json) : Except PyError (List Json) :=
  match v with
  | .arr xs => .ok xs
  | .str s => .ok (s.data.map fun c => .str (String.mk [c]))
  | .obj fields => .ok (fields.map fun p => .str p.1)
  | _ => .error .typeError

/-- `load_subscribers()`:
`set(map(int, load_json(SUBS_FILE, {"chat_ids": []}).get("chat_ids", [])))`.
The `.get` call and the `int` coercions can raise. -/
def load_subscribers (file : FileContent) : Except PyError (Finset Int) := do
  let data := load_json file (.obj [("chat_ids", .arr [])])
  let v ← jsonGet data "chat_ids" (.arr [])
  let xs ← pyIterate v
  let ints ← xs.mapM pyInt
  return ints.toFinset

/-- `save_subscribers(subs)`: the document written to `SUBS_FILE`,
`{"chat_ids": sorted(subs)}`. -/
def save_subscribers (subs : Finset Int) : Json :=
  .obj [("chat_ids", .arr ((subs.sort (· ≤ ·)).map .num))]

/-- `load_seen()`: `set(load_json(SEEN_FILE, {"ids": []}).get("ids", []))`.
The elements are taken as they come; the `.get` call can raise. -/
def load_seen (file : FileContent) : Except PyError (List Json) := do
  let data := load_json file (.obj [("ids", .arr [])])
  let v ← jsonGet data "ids" (.arr [])
  let xs ← pyIterate v
  return xs

/-- `save_seen(seen)`: the document written to `SEEN_FILE`,
`{"ids": sorted(seen)}`. -/
def save_seen (seen : Finset String) : Json :=
  .obj [("ids", .arr ((seen.sort (· ≤ ·)).map .str))]

/-- `load_news_seen()`: identical to `load_seen` but over
`NEWS_SEEN_FILE`. -/
def load_news_seen (file : FileContent) : Except PyError (List Json) :=
  load_seen file

/-- `save_news_seen(seen)`: the document written to `NEWS_SEEN_FILE`,
`{"ids": sorted(seen)}`. -/
def save_news_seen (seen : Finset String) : Json :=
  save_seen seen

/-! ## Hourly scheduler -/

/-- Microseconds per hour. -/
def usPerHour : Nat := 3600000000

/-- `now.replace(minute=0, second=0, microsecond=0)` on a UTC instant
measured in microseconds since the (hour-aligned) Unix epoch. -/
def floorToHourUs (nowUs : Nat) : Nat :=
  nowUs / usPerHour * usPerHour

/-- `now.replace(minute=0, second=0, microsecond=0) + timedelta(hours=1)`. -/
def nextHourUs (nowUs : Nat) : Nat :=
  floorToHourUs nowUs + usPerHour

/-- `seconds_until_next_top_of_hour()`: `(next_hour - now).total_seconds()`
as an exact rational number of seconds, at the instant `nowUs`. -/
def seconds_until_next_top_of_hour (nowUs : Nat) : ℚ :=
  ((nextHourUs nowUs - nowUs : ℕ) : ℚ) / 1000000

/-- Spec-side characterisation: `t` is the next top-of-hour after `now`,
i.e. the least instant strictly after `now` with zero minutes, seconds and
microseconds. -/
def IsNextTopOfHour (nowUs t : Nat) : Prop :=
  nowUs < t ∧ t % usPerHour = 0 ∧ ∀ u, nowUs < u → u % usPerHour = 0 → t ≤ u

/-! ## Feed aggregator -/

/-- A parsed feed entry as `feedparser` hands it over: each attribute may
be absent (`getattr(e, _, default)` then yields the default). -/
structure Entry where
  entryId : Option String
  title : Option String
  summary : Option String
  description : Option String
  link : Option String

/-- `getattr(e, name, "")` for the string attributes. -/
def attrOr (v : Option String) (default : String) : String :=
  v.getD default

/-- Python truthiness-based choice `a or b`: the empty string and `None`
are falsy. -/
def strOr (a : Option String) (b : String) : String :=
  match a with
  | none => b
  | some s => if s = "" then b else s

/-- The uid built for an entry:
`getattr(e, "id", None) or f"(link)::(title)"`. -/
def entryUid (e : Entry) : String :=
  strOr e.entryId (attrOr e.link "" ++ "::" ++ attrOr e.title "")

/-- The text chosen for an entry:
`getattr(e, "summary", None) or getattr(e, "description", None) or getattr(e, "title", "")`. -/
def entryText (e : Entry) : String :=
  strOr e.summary (strOr e.description (attrOr e.title ""))

/-- Outcome of the HTTP fetch plus parse of one source inside the
`try` of `fetch_feed`: either the parsed entry list, or any raised exception (network
error, timeout, non-2xx status from `raise_for_status`, parse error). -/
inductive FetchOutcome where
  | ok : List Entry → FetchOutcome
  | failure : FetchOutcome

/-- `fetch_feed(client, url)`: on success, normalizes each entry with a
non-empty text into `{"id": uid, "text": text.strip(), "link": link}`;
on any exception, catches it and returns `[]`. -/
def fetch_feed (outcome : FetchOutcome) : List FeedItem :=
  match outcome with
  | .failure => []
  | .ok entries =>
    entries.filterMap fun e =>
      let text := entryText e
      if text = "" then none
      else some ⟨entryUid e, text.trim, attrOr e.link ""⟩

/-- The gather-and-concatenate step of `get_fresh_joke` / `get_fresh_news`:
`buckets = await asyncio.gather(*tasks)` preserves the source order, and
`items = [it for bucket in buckets for it in bucket]`. -/
def aggregate_items (sources : List FetchOutcome) : List FeedItem :=
  (sources.map fetch_feed).flatten

/-! ## Fresh-item selector -/

/-- The observable effect of one selector invocation: the item whose text
is returned (`none` when the function returns `None`), the in-memory seen
set when the function returns, and the list of seen-set snapshots written
to disk (`save_seen` / `save_news_seen` calls), in order. -/
structure SelectResult where
  result : Option FeedItem
  seen : Finset String
  saved : List (Finset String)
deriving DecidableEq

/-- The `for it in items` scan: the first item whose id is not in `seen`
(the loop returns as soon as it finds one, so `seen` is unchanged while
scanning). -/
def scanFirstUnseen : List FeedItem → Finset String → Option FeedItem
  | [], _ => none
  | it :: rest, seen =>
    if it.id ∈ seen then scanFirstUnseen rest seen else some it

/-- The message text `get_fresh_joke` formats:
`it.text`, two newlines, and the source link — `it.link`, or the
anekdot.ru default when the link is empty. -/
def joke_text (it : FeedItem) : String :=
  it.text ++ "\n\nИсточник: " ++
    (if it.link = "" then "https://www.anekdot.ru/" else it.link)

/-- The message text `get_fresh_news` formats:
`f"(it.text)\n\nИсточник: (it.link)"`. -/
def news_text (it : FeedItem) : String :=
  it.text ++ "\n\nИсточник: " ++ it.link

/-- `get_fresh_joke()`, selection core: `items` is the aggregated item
list after `random.shuffle` (quantified over in the theorems), `seen0`
the set loaded by `load_seen()`, and `k` the randomness of
`random.choice` (read modulo the list length).  Scans for the first
unseen item; if found, adds its id, persists, and returns it; otherwise
falls back to a random already-seen item without persisting, or returns
`None` when there are no items at all. -/
def get_fresh_joke (items : List FeedItem) (seen0 : Finset String) (k : Nat) :
    SelectResult :=
  match scanFirstUnseen items seen0 with
  | some it => ⟨some it, insert it.id seen0, [insert it.id seen0]⟩
  | none =>
    if items.isEmpty then ⟨none, seen0, []⟩
    else ⟨some (items.getD (k % items.length) default), seen0, []⟩

/-- `get_fresh_news()`, selection core: the same algorithm as
`get_fresh_joke` over `NEWS_FEEDS` and `NEWS_SEEN_FILE` (the Python
bodies differ only in the feed list, the seen file and the message
format). -/
def get_fresh_news (items : List FeedItem) (seen0 : Finset String) (k : Nat) :
    SelectResult :=
  match scanFirstUnseen items seen0 with
  | some it => ⟨some it, insert it.id seen0, [insert it.id seen0]⟩
  | none =>
    if items.isEmpty then ⟨none, seen0, []⟩
    else ⟨some (items.getD (k % items.length) default), seen0, []⟩

/-! ## Broadcast dispatcher -/

/-- `client.send_message(chat_id, text, ...)` with a transport that
accepts (`ok = true`) or raises (`ok = false`). -/
def trySend (ok : Bool) : Except PyError Unit :=
  if ok then .ok () else .error .transportError

/-- The `try: ... except Exception as e: print(...)` wrapper around a
send: the exception is caught and logged. -/
def catchSend (r : Except PyError Unit) : Except PyError Unit :=
  match r with
  | .ok _ => .ok ()
  | .error _ => .ok ()

/-- The placeholder sent when no news item is available. -/
def newsPlaceholder : String := "Пока нет новостей — попробуйте позже."

/-- The placeholder sent when no joke item is available. -/
def jokePlaceholder : String := "Пока нет анекдотов — попробуйте позже."

/-- `send_news_to_chat(client, chat_id)` given the selector outcome for
this invocation (`news`) and the transport `sendOk`.  Mirrors the source:
the placeholder send sits *outside* the `try` block, the item-text send
inside it. -/
def send_news_to_chat (sendOk : Int → String → Bool) (chat_id : Int)
    (news : Option FeedItem) : Except PyError Unit :=
  match news with
  | none => trySend (sendOk chat_id newsPlaceholder)
  | some it => catchSend (trySend (sendOk chat_id (news_text it)))

/-- `send_joke_to_chat(client, chat_id)`: same shape as
`send_news_to_chat`, with the joke placeholder and message. -/
def send_joke_to_chat (sendOk : Int → String → Bool) (chat_id : Int)
    (joke : Option FeedItem) : Except PyError Unit :=
  match joke with
  | none => trySend (sendOk chat_id jokePlaceholder)
  | some it => catchSend (trySend (sendOk chat_id (joke_text it)))

/-- One broadcast pass of `hourly_broadcast_loop`: iterate the (already
shuffled) subscriber list, sending news then joke to each.  `newsFor` and
`jokeFor` give the selector outcome of the `get_fresh_news` /
`get_fresh_joke` invocation made for each subscriber.  Returns the
subscribers processed, or the first uncaught exception — which, as in the
source loop, aborts the remainder of the pass. -/
def broadcast_pass (sendOk : Int → String → Bool)
    (newsFor jokeFor : Int → Option FeedItem) :
    List Int → Except PyError (List Int)
  | [] => .ok []
  | c :: rest =>
    match send_news_to_chat sendOk c (newsFor c) with
    | .error e => .error e
    | .ok _ =>
      match send_joke_to_chat sendOk c (jokeFor c) with
      | .error e => .error e
      | .ok _ =>
        match broadcast_pass sendOk newsFor jokeFor rest with
        | .error e => .error e
        | .ok done => .ok (c :: done)

/-! ## Seen-set traces (process lifetime) -/

/-- A process lifetime of joke-selector invocations threading the
persisted seen file: each call receives some aggregated-and-shuffled item
list and `random.choice` randomness, loads the current seen set, and may
persist snapshots.  Returns the final persisted set and all snapshots
written, in order. -/
def runJokeCalls : Finset String → List (List FeedItem × Nat) →
    Finset String × List (Finset String)
  | st, [] => (st, [])
  | st, (items, k) :: ops =>
    let r := get_fresh_joke items st k
    let rest := runJokeCalls r.seen ops
    (rest.1, r.saved ++ rest.2)

/-! ## Selector lemmas -/

/-- The scan finds nothing exactly when every aggregated id is already
seen. -/
theorem scanFirstUnseen_eq_none {items : List FeedItem} {seen : Finset String} :
    scanFirstUnseen items seen = none ↔ ∀ it ∈ items, it.id ∈ seen := by
  induction items with
  | nil => simp [scanFirstUnseen]
  | cons a rest ih =>
    by_cases ha : a.id ∈ seen <;> simp [scanFirstUnseen, ha, ih]

/-- A found item comes from the list and was unseen. -/
theorem scanFirstUnseen_some {items : List FeedItem} {seen : Finset String}
    {it : FeedItem} (h : scanFirstUnseen items seen = some it) :
    it ∈ items ∧ it.id ∉ seen := by
  induction items with
  | nil => simp [scanFirstUnseen] at h
  | cons a rest ih =>
    by_cases ha : a.id ∈ seen
    · simp only [scanFirstUnseen, if_pos ha] at h
      obtain ⟨hmem, hid⟩ := ih h
      exact ⟨List.mem_cons_of_mem _ hmem, hid⟩
    · simp only [scanFirstUnseen, if_neg ha, Option.some.injEq] at h
      subst h
      exact ⟨List.mem_cons_self _ _, ha⟩

/-- The fallback `random.choice(items)` picks a member of the list. -/
theorem getD_mod_mem (l : List FeedItem) (k : Nat) (h : l ≠ []) :
    l.getD (k % l.length) default ∈ l := by
  have hlen : k % l.length < l.length :=
    Nat.mod_lt _ (List.length_pos.mpr h)
  rw [List.getD_eq_getElem _ _ hlen]
  exact List.getElem_mem hlen

/-- Each selector call either changes nothing (fallback or empty list) or
inserts exactly one id and persists exactly that snapshot. -/
theorem get_fresh_joke_step (items : List FeedItem) (seen0 : Finset String)
    (k : Nat) :
    ((get_fresh_joke items seen0 k).seen = seen0 ∧
      (get_fresh_joke items seen0 k).saved = []) ∨
    (∃ x, (get_fresh_joke items seen0 k).seen = insert x seen0 ∧
      (get_fresh_joke items seen0 k).saved = [insert x seen0]) := by
  unfold get_fresh_joke
  cases hscan : scanFirstUnseen items seen0 with
  | none =>
    by_cases hne : items.isEmpty <;> simp [hne]
  | some it => exact Or.inr ⟨it.id, rfl, rfl⟩

/-- The two selectors share one selection core. -/
theorem get_fresh_news_eq_joke :
    get_fresh_news = get_fresh_joke := rfl

/-! ## Claim theorems: selector -/

/-- C1: when the aggregated list holds at least one item whose id is not
in the seen-set, the selector (`get_fresh_joke` / `get_fresh_news`)
returns some such item, the in-memory seen-set on return is exactly the
old set plus the id of that item, and exactly that set is persisted
(`save_seen` / `save_news_seen`) before returning.  Quantifying over
`items` covers every outcome of `random.shuffle`. -/
theorem selector_fresh_pick (items : List FeedItem) (seen0 : Finset String)
    (k : Nat) (h : ∃ it ∈ items, it.id ∉ seen0) :
    ∃ it, it ∈ items ∧ it.id ∉ seen0 ∧
      get_fresh_joke items seen0 k =
        ⟨some it, insert it.id seen0, [insert it.id seen0]⟩ ∧
      get_fresh_news items seen0 k =
        ⟨some it, insert it.id seen0, [insert it.id seen0]⟩ := by
  cases hscan : scanFirstUnseen items seen0 with
  | none =>
    exfalso
    obtain ⟨it, hmem, hid⟩ := h
    exact hid (scanFirstUnseen_eq_none.mp hscan it hmem)
  | some it =>
    obtain ⟨hmem, hid⟩ := scanFirstUnseen_some hscan
    refine ⟨it, hmem, hid, ?_, ?_⟩ <;>
      simp [get_fresh_joke, get_fresh_news, hscan]

/-- Witness for C1 at a concrete input. -/
theorem selector_fresh_pick_witness :
    ∃ it, it ∈ [(⟨"a", "txt", "lnk"⟩ : FeedItem)] ∧
      it.id ∉ ({"b"} : Finset String) ∧
      get_fresh_joke [⟨"a", "txt", "lnk"⟩] {"b"} 0 =
        ⟨some it, insert it.id {"b"}, [insert it.id {"b"}]⟩ ∧
      get_fresh_news [⟨"a", "txt", "lnk"⟩] {"b"} 0 =
        ⟨some it, insert it.id {"b"}, [insert it.id {"b"}]⟩ :=
  selector_fresh_pick [⟨"a", "txt", "lnk"⟩] {"b"} 0
    ⟨⟨"a", "txt", "lnk"⟩, by simp, by decide⟩

/-- C2: when the aggregated list is non-empty and every id is already in
the seen-set, the selector returns some item drawn from the list, leaves
the seen-set unchanged, and performs no persistence write. -/
theorem selector_exhausted_fallback (items : List FeedItem)
    (seen0 : Finset String) (k : Nat) (hne : items ≠ [])
    (hall : ∀ it ∈ items, it.id ∈ seen0) :
    ∃ it, it ∈ items ∧
      get_fresh_joke items seen0 k = ⟨some it, seen0, []⟩ ∧
      get_fresh_news items seen0 k = ⟨some it, seen0, []⟩ := by
  have hscan : scanFirstUnseen items seen0 = none :=
    scanFirstUnseen_eq_none.mpr hall
  have hempty : items.isEmpty = false := by
    cases items with
    | nil => exact absurd rfl hne
    | cons a rest => rfl
  refine ⟨items.getD (k % items.length) default, getD_mod_mem items k hne, ?_, ?_⟩ <;>
    simp [get_fresh_joke, get_fresh_news, hscan, hempty]

/-- Witness for C2 at a concrete input. -/
theorem selector_exhausted_fallback_witness :
    ∃ it, it ∈ [(⟨"a", "txt", "lnk"⟩ : FeedItem)] ∧
      get_fresh_joke [⟨"a", "txt", "lnk"⟩] {"a"} 5 = ⟨some it, {"a"}, []⟩ ∧
      get_fresh_news [⟨"a", "txt", "lnk"⟩] {"a"} 5 = ⟨some it, {"a"}, []⟩ :=
  selector_exhausted_fallback [⟨"a", "txt", "lnk"⟩] {"a"} 5
    (by simp) (by simp)

/-- C6: on an empty aggregated list the selector returns `None`, leaves
the seen-set unchanged and writes nothing. -/
theorem selector_empty_items (seen0 : Finset String) (k : Nat) :
    get_fresh_joke [] seen0 k = ⟨none, seen0, []⟩ ∧
    get_fresh_news [] seen0 k = ⟨none, seen0, []⟩ :=
  ⟨rfl, rfl⟩

/-- Monotonicity of a trace of selector calls: the final seen set extends
the initial one, every persisted snapshot extends the initial set, and
the persisted snapshots form a `⊆`-chain in write order. -/
theorem runJokeCalls_mono (ops : List (List FeedItem × Nat))
    (st : Finset String) :
    st ⊆ (runJokeCalls st ops).1 ∧
    (∀ s ∈ (runJokeCalls st ops).2, st ⊆ s) ∧
    List.Chain' (· ⊆ ·) (runJokeCalls st ops).2 := by
  induction ops generalizing st with
  | nil => exact ⟨Finset.Subset.refl st, by simp [runJokeCalls], by simp [runJokeCalls]⟩
  | cons op ops ih =>
    obtain ⟨items, k⟩ := op
    set r := get_fresh_joke items st k with hr
    obtain ⟨hfin, hall, hchain⟩ := ih r.seen
    have hstep := get_fresh_joke_step items st k
    have hseen_sub : st ⊆ r.seen := by
      rcases hstep with ⟨h1, _⟩ | ⟨x, h1, _⟩
      · rw [← hr] at h1; rw [h1]
      · rw [← hr] at h1; rw [h1]; exact Finset.subset_insert x st
    have hrun : runJokeCalls st ((items, k) :: ops) =
        ((runJokeCalls r.seen ops).1, r.saved ++ (runJokeCalls r.seen ops).2) := rfl
    refine ⟨?_, ?_, ?_⟩
    · rw [hrun]
      exact hseen_sub.trans hfin
    · rw [hrun]
      intro s hs
      rcases List.mem_append.mp hs with hs | hs
      · rcases hstep with ⟨_, h2⟩ | ⟨x, h1, h2⟩
        · rw [← hr] at h2; rw [h2] at hs; simp at hs
        · rw [← hr] at h1 h2; rw [h2] at hs
          simp at hs
          rw [hs, ← h1]
          exact hseen_sub
      · exact hseen_sub.trans (hall s hs)
    · rw [hrun]
      refine List.Chain'.append ?_ hchain ?_
      · rcases hstep with ⟨_, h2⟩ | ⟨x, _, h2⟩ <;> rw [← hr] at h2 <;> rw [h2] <;> simp
      · intro a ha b hb
        rcases hstep with ⟨_, h2⟩ | ⟨x, h1, h2⟩
        · rw [← hr] at h2; rw [h2] at ha; simp at ha
        · rw [← hr] at h1 h2; rw [h2] at ha
          simp at ha
          rw [← ha, ← h1]
          exact hall b (List.mem_of_mem_head? hb)

/-- C9: the seen-set grows monotonically.  Each selector invocation (the
only code that touches a seen file) only ever extends the set it loaded —
both the in-memory set it returns with and every snapshot it persists —
and across any sequence of invocations within a process lifetime the
persisted snapshots form a `⊆`-increasing chain over the initial set.
(`get_fresh_news` shares the same core, see `get_fresh_news_eq_joke`, so
the news seen file behaves identically.) -/
theorem seen_set_monotone :
    (∀ items seen0 k, seen0 ⊆ (get_fresh_joke items seen0 k).seen ∧
      ∀ s ∈ (get_fresh_joke items seen0 k).saved, seen0 ⊆ s) ∧
    (∀ items seen0 k, seen0 ⊆ (get_fresh_news items seen0 k).seen ∧
      ∀ s ∈ (get_fresh_news items seen0 k).saved, seen0 ⊆ s) ∧
    (∀ ops st, st ⊆ (runJokeCalls st ops).1 ∧
      (∀ s ∈ (runJokeCalls st ops).2, st ⊆ s) ∧
      List.Chain' (· ⊆ ·) (runJokeCalls st ops).2) := by
  have hsingle : ∀ items seen0 k,
      seen0 ⊆ (get_fresh_joke items seen0 k).seen ∧
      ∀ s ∈ (get_fresh_joke items seen0 k).saved, seen0 ⊆ s := by
    intro items seen0 k
    rcases get_fresh_joke_step items seen0 k with ⟨h1, h2⟩ | ⟨x, h1, h2⟩
    · rw [h1, h2]
      exact ⟨Finset.Subset.refl seen0, by simp⟩
    · rw [h1, h2]
      refine ⟨Finset.subset_insert x seen0, ?_⟩
      intro s hs
      simp at hs
      rw [hs]
      exact Finset.subset_insert x seen0
  exact ⟨hsingle, by rw [get_fresh_news_eq_joke]; exact hsingle,
    fun ops st => runJokeCalls_mono ops st⟩

/-- Witness for C9 at a concrete input. -/
theorem seen_set_monotone_witness :
    ({"b"} : Finset String) ⊆
      (get_fresh_joke [⟨"a", "txt", "lnk"⟩] {"b"} 0).seen :=
  (seen_set_monotone.1 [⟨"a", "txt", "lnk"⟩] {"b"} 0).1

/-! ## Claim theorems: aggregator -/

/-- C5: a per-source failure contributes zero items (`fetch_feed`
catches every exception and returns `[]`) and never aborts the pass:
the aggregated list is exactly the concatenation of the items of the
successfully fetched sources, in source order. -/
theorem aggregation_tolerates_failures (sources : List FetchOutcome) :
    fetch_feed .failure = [] ∧
    aggregate_items sources =
      (sources.filterMap fun o =>
        match o with
        | .ok es => some (fetch_feed (.ok es))
        | .failure => none).flatten := by
  refine ⟨rfl, ?_⟩
  induction sources with
  | nil => rfl
  | cons s rest ih =>
    cases s with
    | ok es =>
      simp only [aggregate_items, List.map_cons, List.flatten_cons,
        List.filterMap_cons] at ih ⊢
      rw [ih]
    | failure =>
      simp only [aggregate_items, List.map_cons, List.flatten_cons,
        List.filterMap_cons, fetch_feed, List.nil_append] at ih ⊢
      rw [ih]

/-! ## Claim theorems: scheduler -/

/-- C8: the sleep target of the scheduler is the next top-of-hour — the least
UTC instant strictly after `now` with zero minutes, seconds and
microseconds — and the computed delay is exactly that instant minus now;
invoked at any instant hh:37:00.000000 UTC the delay is 1380 seconds. -/
theorem scheduler_delay_correct :
    (∀ nowUs, IsNextTopOfHour nowUs (nextHourUs nowUs) ∧
      seconds_until_next_top_of_hour nowUs =
        ((nextHourUs nowUs - nowUs : ℕ) : ℚ) / 1000000) ∧
    (∀ h : Nat,
      seconds_until_next_top_of_hour (h * usPerHour + 2220000000) = 1380) := by
  constructor
  · intro nowUs
    refine ⟨⟨?_, ?_, ?_⟩, rfl⟩
    · simp only [nextHourUs, floorToHourUs, usPerHour]
      omega
    · simp only [nextHourUs, floorToHourUs, usPerHour]
      omega
    · intro u hu hm
      simp only [nextHourUs, floorToHourUs, usPerHour] at *
      omega
  · intro h
    have hd : nextHourUs (h * usPerHour + 2220000000) -
        (h * usPerHour + 2220000000) = 1380000000 := by
      simp only [nextHourUs, floorToHourUs, usPerHour]
      omega
    rw [seconds_until_next_top_of_hour, hd]
    norm_num

/-- Witness for C8 at a concrete input (12:37:00 UTC on 1970-01-01). -/
theorem scheduler_delay_correct_witness :
    seconds_until_next_top_of_hour (12 * usPerHour + 2220000000) = 1380 :=
  scheduler_delay_correct.2 12

/-- C10: the computed delay is strictly positive and at most 3600
seconds; at an exact top-of-hour boundary it is 3600, not 0, so the loop
never fires twice inside the same hour. -/
theorem scheduler_delay_bounds (nowUs : Nat) :
    0 < seconds_until_next_top_of_hour nowUs ∧
    seconds_until_next_top_of_hour nowUs ≤ 3600 ∧
    (nowUs % usPerHour = 0 → seconds_until_next_top_of_hour nowUs = 3600) := by
  have hpos : 0 < nextHourUs nowUs - nowUs := by
    simp only [nextHourUs, floorToHourUs, usPerHour]
    omega
  have hle : nextHourUs nowUs - nowUs ≤ 3600000000 := by
    simp only [nextHourUs, floorToHourUs, usPerHour]
    omega
  refine ⟨?_, ?_, ?_⟩
  · rw [seconds_until_next_top_of_hour]
    positivity
  · rw [seconds_until_next_top_of_hour]
    rw [div_le_iff₀ (by norm_num)]
    calc ((nextHourUs nowUs - nowUs : ℕ) : ℚ) ≤ ((3600000000 : ℕ) : ℚ) := by
          exact_mod_cast hle
      _ = 3600 * 1000000 := by norm_num
  · intro hb
    have hd : nextHourUs nowUs - nowUs = 3600000000 := by
      simp only [nextHourUs, floorToHourUs, usPerHour] at *
      omega
    rw [seconds_until_next_top_of_hour, hd]
    norm_num

/-- Witness for C10 at the boundary instant 07:00:00.000000 UTC. -/
theorem scheduler_delay_bounds_witness :
    seconds_until_next_top_of_hour 25200000000 = 3600 :=
  (scheduler_delay_bounds 25200000000).2.2 (by norm_num [usPerHour])

/-! ## Claim theorems: broadcast dispatcher -/

/-- The `try`/`except` wrapper swallows any send failure. -/
theorem catchSend_trySend (b : Bool) : catchSend (trySend b) = .ok () := by
  cases b <;> rfl

/-- Counterexample to C3: with two subscribers, no news or joke item
available, and a transport that rejects every send, the *placeholder*
send to the first subscriber raises outside the `try` block, the
exception escapes `send_news_to_chat`, and the pass aborts before the
second subscriber is processed — contradicting "a transport error ...
(including the case where ... the placeholder message is sent) is caught
and does not stop the pass". -/
theorem broadcast_placeholder_send_uncaught :
    broadcast_pass (fun _ _ => false) (fun _ => none) (fun _ => none) [1, 2] =
      .error .transportError := rfl

/-- C3 (amended): a transport error raised while sending the *item text*
for a subscriber is caught and the pass proceeds to the remaining
subscribers — when every subscriber has an item available (news and
joke), the pass completes over the whole subscriber list for every
transport behaviour.  (Only the placeholder send, made when no item is
available, sits outside the `try` block and can abort the pass.) -/
theorem broadcast_item_send_errors_caught (sendOk : Int → String → Bool)
    (newsFor jokeFor : Int → Option FeedItem) (subs : List Int)
    (hnews : ∀ c ∈ subs, (newsFor c).isSome)
    (hjoke : ∀ c ∈ subs, (jokeFor c).isSome) :
    broadcast_pass sendOk newsFor jokeFor subs = .ok subs := by
  induction subs with
  | nil => rfl
  | cons c rest ih =>
    obtain ⟨itn, hn⟩ :=
      Option.isSome_iff_exists.mp (hnews c (List.mem_cons_self c rest))
    obtain ⟨itj, hj⟩ :=
      Option.isSome_iff_exists.mp (hjoke c (List.mem_cons_self c rest))
    have ihr := ih (fun x hx => hnews x (List.mem_cons_of_mem _ hx))
      (fun x hx => hjoke x (List.mem_cons_of_mem _ hx))
    simp [broadcast_pass, hn, hj, send_news_to_chat, send_joke_to_chat,
      catchSend_trySend, ihr]

/-- Witness for the amended C3: items available for both subscribers, a
transport that rejects every send — the pass still reaches everyone. -/
theorem broadcast_item_send_errors_caught_witness :
    broadcast_pass (fun _ _ => false)
      (fun _ => some ⟨"n", "newsTxt", "l"⟩)
      (fun _ => some ⟨"j", "jokeTxt", "l"⟩) [1, 2] = .ok [1, 2] :=
  broadcast_item_send_errors_caught (fun _ _ => false)
    (fun _ => some ⟨"n", "newsTxt", "l"⟩)
    (fun _ => some ⟨"j", "jokeTxt", "l"⟩) [1, 2]
    (by intro c _; rfl) (by intro c _; rfl)

/-! ## Claim theorems: persistence loaders -/

/-- Counterexample to C4: a file holding the *valid JSON* document
`[1, 2, 3]` — well-formed JSON of the wrong shape (a non-object) — makes
`load_subscribers` raise `AttributeError` to its caller
(`data.get("chat_ids", [])` on a list), contradicting "loading ... never
raises to the caller: ... malformed content (including valid JSON of the
wrong shape, such as a non-object document ...) yields the empty set". -/
theorem load_wrong_shape_raises :
    load_subscribers (.parsed (.arr [.num 1, .num 2, .num 3])) =
      .error .attributeError := rfl

/-- C4 (amended): a missing state file, or content that `json.load`
rejects, yields the empty set and never raises — for all three loaders.
(Valid JSON of the wrong shape is *not* covered: a non-object document
raises `AttributeError`, a non-integer chat id raises
`ValueError`/`TypeError`.) -/
theorem load_defaults_on_missing_or_malformed :
    load_subscribers .missing = .ok ∅ ∧
    load_subscribers .malformed = .ok ∅ ∧
    load_seen .missing = .ok [] ∧
    load_seen .malformed = .ok [] ∧
    load_news_seen .missing = .ok [] ∧
    load_news_seen .malformed = .ok [] :=
  ⟨rfl, rfl, rfl, rfl, rfl, rfl⟩

/-- A non-integer chat id (here JSON `null`) raises `TypeError` through
`int(...)`; with it, `load_subscribers` raises to the caller. -/
theorem load_bad_chat_id_raises :
    load_subscribers
      (.parsed (.obj [("chat_ids", .arr [.num 1, .null])])) =
      .error .typeError := rfl

/-! ## Claim theorems: persistence round-trip -/

/-- `map(int, ...)` over a list of JSON integers recovers the integers. -/
theorem mapM_pyInt_num (l : List Int) :
    (l.map Json.num).mapM pyInt = .ok l := by
  induction l with
  | nil => rfl
  | cons a l ih =>
    rw [List.map_cons, List.mapM_cons, ih]
    rfl

/-- `sorted` of the set of a strictly sorted list is that list again. -/
theorem sort_toFinset_of_sorted {α : Type} [LinearOrder α]
    [DecidableEq α] {l : List α} (hl : l.Sorted (· < ·)) :
    l.toFinset.sort (· ≤ ·) = l :=
  (List.toFinset_sort (· ≤ ·) hl.nodup).mpr hl.le_of_lt

/-- C7: persistence round-trips.  For every valid persisted document —
`{"chat_ids": [strictly ascending integers]}` for the subscriber set,
`{"ids": [strictly ascending strings]}` for a seen-set — loading yields
exactly the corresponding set and saving that set writes the identical
document back, i.e. `save(load(x)) = x`; in particular `{1, 2, 3}`
serializes to `{"chat_ids": [1, 2, 3]}` and deserializes back.
(`load_seen` returns the raw elements that the `set(...)` builtin consumes; for
a duplicate-free string list those are precisely the strings of
`l.toFinset`, the set `save_seen` is applied to.) -/
theorem persistence_round_trip :
    (∀ l : List Int, l.Sorted (· < ·) →
      load_subscribers (.parsed (.obj [("chat_ids", .arr (l.map .num))])) =
        .ok l.toFinset ∧
      save_subscribers l.toFinset =
        .obj [("chat_ids", .arr (l.map .num))]) ∧
    (∀ l : List String, l.Sorted (· < ·) →
      load_seen (.parsed (.obj [("ids", .arr (l.map .str))])) =
        .ok (l.map .str) ∧
      load_news_seen (.parsed (.obj [("ids", .arr (l.map .str))])) =
        .ok (l.map .str) ∧
      save_seen l.toFinset = .obj [("ids", .arr (l.map .str))] ∧
      save_news_seen l.toFinset = .obj [("ids", .arr (l.map .str))]) ∧
    (load_subscribers
        (.parsed (.obj [("chat_ids", .arr [.num 1, .num 2, .num 3])])) =
      .ok {1, 2, 3} ∧
     save_subscribers {1, 2, 3} =
      .obj [("chat_ids", .arr [.num 1, .num 2, .num 3])]) := by
  have hsubs : ∀ l : List Int, l.Sorted (· < ·) →
      load_subscribers (.parsed (.obj [("chat_ids", .arr (l.map .num))])) =
        .ok l.toFinset ∧
      save_subscribers l.toFinset =
        .obj [("chat_ids", .arr (l.map .num))] := by
    intro l hl
    constructor
    · have hred : load_subscribers
          (.parsed (.obj [("chat_ids", .arr (l.map .num))])) =
          (l.map Json.num).mapM pyInt >>= fun ints => pure ints.toFinset := rfl
      rw [hred, mapM_pyInt_num]
      rfl
    · simp only [save_subscribers, sort_toFinset_of_sorted hl]
  refine ⟨hsubs, ?_, ?_⟩
  · intro l hl
    refine ⟨rfl, rfl, ?_, ?_⟩
    · simp only [save_seen, sort_toFinset_of_sorted hl]
    · simp only [save_news_seen, save_seen, sort_toFinset_of_sorted hl]
  · have h3 := hsubs [1, 2, 3] (by decide)
    have he : ([1, 2, 3] : List Int).toFinset = ({1, 2, 3} : Finset Int) := by
      decide
    rw [he] at h3
    exact h3

/-- Witness for C7: the `{1, 2, 3}` subscriber set and the `["a"]`
seen-set, with every sortedness hypothesis discharged. -/
theorem persistence_round_trip_witness :
    (load_subscribers
        (.parsed (.obj [("chat_ids", .arr [.num 1, .num 2, .num 3])])) =
      .ok ([1, 2, 3] : List Int).toFinset ∧
     save_subscribers ([1, 2, 3] : List Int).toFinset =
      .obj [("chat_ids", .arr [.num 1, .num 2, .num 3])]) ∧
    (load_seen (.parsed (.obj [("ids", .arr [.str "a"])])) =
      .ok [.str "a"] ∧
     load_news_seen (.parsed (.obj [("ids", .arr [.str "a"])])) =
      .ok [.str "a"] ∧
     save_seen (["a"] : List String).toFinset =
      .obj [("ids", .arr [.str "a"])] ∧
     save_news_seen (["a"] : List String).toFinset =
      .obj [("ids", .arr [.str "a"])]) :=
  ⟨persistence_round_trip.1 [1, 2, 3] (by decide),
   persistence_round_trip.2.1 ["a"] (by simp)⟩

end JokeBot
